import Mathlib

/-!
Shallow embedding of the goarchtest core (type model, TypeSet predicates,
result evaluation, architecture patterns) and proofs about the claims of
its specification.

Go methods on `*TypeSet` are embedded as functions on a `TypeSet` record.
A method that mutates its receiver and returns it (the style of
`BeStruct`, `ImplementInterface`, `NameMatch`, ...) is embedded as one
function whose value is both the returned object and the receiver's state
after the call.  A method that builds a fresh `TypeSet` and returns it
(`ResideInNamespace`, `HaveDependencyOn`, `ShouldNot` in predicates.go)
is embedded as the state of the returned object, with a separate
`...ReceiverAfter` definition for the receiver's state after the call
(those methods mutate only the receiver's `currentPredicate` field before
building the copy).
-/

namespace GoArchTest

/-- strings.HasPrefix, on the character lists underlying the strings. -/
def goStartsWith (s p : String) : Bool := p.data.isPrefixOf s.data

/-- strings.HasSuffix, on the character lists underlying the strings. -/
def goEndsWith (s p : String) : Bool := p.data.isSuffixOf s.data

/-- Contiguous-occurrence test on character lists: the needle occurs as
a prefix of some suffix of the haystack. -/
def charsContains (needle : List Char) : List Char → Bool
  | [] => needle.isPrefixOf []
  | c :: t => needle.isPrefixOf (c :: t) || charsContains needle t

/-- strings.Contains, on the character lists underlying the strings. -/
def goContains (s sub : String) : Bool := charsContains sub.data s.data

/-- TypeInfo (types.go): the extracted record of one declared Go type. -/
structure TypeInfo where
  Name : String
  Package : String
  FullPath : String
  Imports : List String
  Interfaces : List String
  IsStruct : Bool
  IsInterface : Bool
deriving Repr, DecidableEq

/-- TypeSet (types.go): a query cursor — current records, the baseline
snapshot (`originalTypes`), the name of the predicate being applied, and
the log of applied predicates. -/
structure TypeSet where
  types : List TypeInfo
  originalTypes : List TypeInfo
  currentPredicate : String
  matchedPredicates : List String
deriving Repr, DecidableEq

/-- Result (types.go). -/
structure Result where
  IsSuccessful : Bool
  FailingTypes : List TypeInfo
deriving Repr, DecidableEq

/-- TypeSet.That (types.go:135-138): sets the receiver's
`currentPredicate` and returns the receiver itself (no copy). -/
def TypeSet.That (ts : TypeSet) : TypeSet :=
  { ts with currentPredicate := "That" }

/-- The namespace condition of ResideInNamespace (predicates.go of
part_009, lines 19-52): the loop body appends a record on the first of
the three `if`/`continue` blocks that hits, i.e. keeps the record iff
exact match, or suffix/interior-segment match, or prefix match. -/
def rinMatch (ns : String) (t : TypeInfo) : Bool :=
  t.FullPath == ns
  || (goEndsWith t.FullPath ("/" ++ ns) || goContains t.FullPath ("/" ++ ns ++ "/"))
  || goStartsWith t.FullPath (ns ++ "/")

/-- TypeSet.ResideInNamespace (part_009:19-52): state of the freshly
built TypeSet the method returns. -/
def TypeSet.ResideInNamespace (ts : TypeSet) (ns : String) : TypeSet :=
  { types := ts.types.filter (rinMatch ns)
    originalTypes := ts.originalTypes
    currentPredicate := "ResideInNamespace"
    matchedPredicates := ts.matchedPredicates ++ ["ResideInNamespace"] }

/-- Receiver state after ResideInNamespace: the method assigns
`ts.currentPredicate = "ResideInNamespace"` on the receiver and then
builds the returned copy, leaving the receiver's records untouched. -/
def TypeSet.rinReceiverAfter (ts : TypeSet) : TypeSet :=
  { ts with currentPredicate := "ResideInNamespace" }

/-- The per-import condition of HaveDependencyOn (part_009:66-107):
exact match, prefix match with slash, suffix match, or interior-segment
match. -/
def hdoImportMatch (dep imp : String) : Bool :=
  imp == dep
  || goStartsWith imp (dep ++ "/")
  || goEndsWith imp ("/" ++ dep)
  || goContains imp ("/" ++ dep ++ "/")

/-- TypeSet.HaveDependencyOn (part_009:66-107): keeps a record when
some import matches (inner loop with break = any); returns a fresh
TypeSet. -/
def TypeSet.HaveDependencyOn (ts : TypeSet) (dep : String) : TypeSet :=
  { types := ts.types.filter (fun t => t.Imports.any (hdoImportMatch dep))
    originalTypes := ts.originalTypes
    currentPredicate := "HaveDependencyOn"
    matchedPredicates := ts.matchedPredicates ++ ["HaveDependencyOn"] }

/-- Receiver state after HaveDependencyOn (only `currentPredicate` is
assigned on the receiver before the copy is built). -/
def TypeSet.hdoReceiverAfter (ts : TypeSet) : TypeSet :=
  { ts with currentPredicate := "HaveDependencyOn" }

/-- TypeSet.ImplementInterface (part_009:121-137): mutates the receiver
(`ts.types = filteredTypes`) and returns it. -/
def TypeSet.ImplementInterface (ts : TypeSet) (ifaceName : String) : TypeSet :=
  { ts with
    currentPredicate := "ImplementInterface"
    types := ts.types.filter (fun t => t.Interfaces.any (· == ifaceName))
    matchedPredicates := ts.matchedPredicates ++ ["ImplementInterface"] }

/-- TypeSet.BeStruct (part_009:148-161): mutates the receiver and
returns it. -/
def TypeSet.BeStruct (ts : TypeSet) : TypeSet :=
  { ts with
    currentPredicate := "BeStruct"
    types := ts.types.filter (fun t => t.IsStruct)
    matchedPredicates := ts.matchedPredicates ++ ["BeStruct"] }

/-- TypeSet.And (part_009:171-175): log marker only; sets
`currentPredicate` and returns the receiver unchanged otherwise. -/
def TypeSet.And (ts : TypeSet) : TypeSet :=
  { ts with currentPredicate := "And" }

/-- The union key of Or (part_009:185-205): `t.Package + "." + t.Name`. -/
def orKey (t : TypeInfo) : String := t.Package ++ "." ++ t.Name

/-- The second loop of Or: walk the other set's records, appending each
whose key is not yet in the union map (the map is modelled as the list of
keys inserted so far). -/
def orAppendLoop (cur : List TypeInfo) (seen : List String) :
    List TypeInfo → List TypeInfo
  | [] => cur
  | t :: rest =>
    if seen.contains (orKey t) then orAppendLoop cur seen rest
    else orAppendLoop (cur ++ [t]) (seen ++ [orKey t]) rest

/-- TypeSet.Or (part_009:185-205): seeds the union map with the keys of
the receiver's records, then appends the other set's new-keyed records to
the receiver's list; mutates the receiver and returns it. -/
def TypeSet.Or (ts other : TypeSet) : TypeSet :=
  { ts with
    currentPredicate := "Or"
    types := orAppendLoop ts.types (ts.types.map orKey) other.types
    matchedPredicates := ts.matchedPredicates ++ ["Or"] }

/-- TypeSet.Should (part_009:215-221): mutates the receiver, storing the
current records as the baseline (`ts.originalTypes = ts.types`), and
returns it.  Nothing is appended to the predicate log. -/
def TypeSet.Should (ts : TypeSet) : TypeSet :=
  { ts with currentPredicate := "Should", originalTypes := ts.types }

/-- TypeSet.ShouldNot (part_009:231-242): builds a fresh TypeSet whose
records are a copy of the receiver's, whose baseline is carried forward
from the receiver unchanged, and whose log gains the "Negate" sentinel. -/
def TypeSet.ShouldNot (ts : TypeSet) : TypeSet :=
  { types := ts.types
    originalTypes := ts.originalTypes
    currentPredicate := "ShouldNot"
    matchedPredicates := ts.matchedPredicates ++ ["Negate"] }

/-- Receiver state after ShouldNot (only `currentPredicate` is assigned
on the receiver before the copy is built). -/
def TypeSet.shouldNotReceiverAfter (ts : TypeSet) : TypeSet :=
  { ts with currentPredicate := "ShouldNot" }

/-- TypeSet.Not (part_009:252-255): sets `currentPredicate` only. -/
def TypeSet.Not (ts : TypeSet) : TypeSet :=
  { ts with currentPredicate := "Not" }

/-- TypeSet.NameMatch (part_010:9-29).  regexp.Compile is external; its
outcome is passed in as `compiled`: `none` models a pattern that fails to
compile (the `err != nil` branch empties the record list and returns the
receiver WITHOUT appending to the predicate log), `some rx` models a
compiled pattern with match function `rx`. -/
def TypeSet.NameMatch (ts : TypeSet) (compiled : Option (String → Bool)) : TypeSet :=
  match compiled with
  | none => { ts with currentPredicate := "NameMatch", types := [] }
  | some rx =>
    { ts with
      currentPredicate := "NameMatch"
      types := ts.types.filter (fun t => rx t.Name)
      matchedPredicates := ts.matchedPredicates ++ ["NameMatch"] }

/-- TypeSet.HaveNameEndingWith (part_010:32-45): mutates the receiver and
returns it. -/
def TypeSet.HaveNameEndingWith (ts : TypeSet) (sfx : String) : TypeSet :=
  { ts with
    currentPredicate := "HaveNameEndingWith"
    types := ts.types.filter (fun t => goEndsWith t.Name sfx)
    matchedPredicates := ts.matchedPredicates ++ ["HaveNameEndingWith"] }

/-- TypeSet.HaveNameStartingWith (part_010:48-61): mutates the receiver
and returns it. -/
def TypeSet.HaveNameStartingWith (ts : TypeSet) (pre : String) : TypeSet :=
  { ts with
    currentPredicate := "HaveNameStartingWith"
    types := ts.types.filter (fun t => goStartsWith t.Name pre)
    matchedPredicates := ts.matchedPredicates ++ ["HaveNameStartingWith"] }

/-- TypeSet.ResideInDirectory (part_010:64-77): substring match on
FullPath; mutates the receiver and returns it. -/
def TypeSet.ResideInDirectory (ts : TypeSet) (dir : String) : TypeSet :=
  { ts with
    currentPredicate := "ResideInDirectory"
    types := ts.types.filter (fun t => goContains t.FullPath dir)
    matchedPredicates := ts.matchedPredicates ++ ["ResideInDirectory"] }

/-- TypeSet.DoNotResideInNamespace (part_010:80-93): keeps records whose
Package does NOT contain the namespace as a substring; mutates the
receiver and returns it. -/
def TypeSet.DoNotResideInNamespace (ts : TypeSet) (ns : String) : TypeSet :=
  { ts with
    currentPredicate := "DoNotResideInNamespace"
    types := ts.types.filter (fun t => !(goContains t.Package ns))
    matchedPredicates := ts.matchedPredicates ++ ["DoNotResideInNamespace"] }

/-- TypeSet.DoNotHaveDependencyOn (part_010:96-117): keeps records where
NO import contains the dependency as a substring (note: plain substring
containment, not the segment-aware matching of HaveDependencyOn);
mutates the receiver and returns it. -/
def TypeSet.DoNotHaveDependencyOn (ts : TypeSet) (dep : String) : TypeSet :=
  { ts with
    currentPredicate := "DoNotHaveDependencyOn"
    types := ts.types.filter (fun t => !(t.Imports.any (fun imp => goContains imp dep)))
    matchedPredicates := ts.matchedPredicates ++ ["DoNotHaveDependencyOn"] }

/-- TypeSet.WithCustomPredicate (part_008:7-20): filters by a
caller-supplied predicate; mutates the receiver and returns it. -/
def TypeSet.WithCustomPredicate (ts : TypeSet) (name : String)
    (pred : TypeInfo → Bool) : TypeSet :=
  { ts with
    currentPredicate := name
    types := ts.types.filter pred
    matchedPredicates := ts.matchedPredicates ++ [name] }

/-- TypeSet.getFailingTypes (types.go:180-199): the baseline records with
no surviving record of the same FullPath and Name (the outer loop with
the `found` flag is a filter by non-existence). -/
def TypeSet.getFailingTypes (ts : TypeSet) : List TypeInfo :=
  ts.originalTypes.filter (fun origType =>
    !(ts.types.any (fun filteredType =>
        origType.FullPath == filteredType.FullPath
        && origType.Name == filteredType.Name)))

/-- TypeSet.GetResult (types.go:147-177): empty log passes trivially;
with the "Negate" sentinel anywhere in the log (the shouldNegate loop
with break = any), success iff no record remains and the failing types
are the remaining records; otherwise success iff some record remains and
the failing types come from getFailingTypes. -/
def TypeSet.GetResult (ts : TypeSet) : Result :=
  if ts.matchedPredicates.length == 0 then
    { IsSuccessful := true, FailingTypes := [] }
  else if ts.matchedPredicates.any (· == "Negate") then
    { IsSuccessful := ts.types.length == 0, FailingTypes := ts.types }
  else
    { IsSuccessful := decide (ts.types.length > 0)
      FailingTypes := ts.getFailingTypes }

/-- Types (types.go:14-17): the entry point; only its TypeSet matters to
the core (the loaded packages are consumed during extraction). -/
structure Types where
  typeSet : TypeSet
deriving Repr, DecidableEq

/-- Every rule closure in architecture_patterns.go is one of these four
shapes (all of them start with `types.That().ResideInNamespace(scope)`):
a ShouldNot/HaveDependencyOn chain, a Should/HaveDependencyOn chain, the
hexagonal "domain layer should exist" check, or a
Should/ImplementInterface chain. -/
inductive RuleBody where
  | shouldNotDep (scope dep : String)
  | shouldDep (scope dep : String)
  | domainExists (ns : String)
  | shouldImplement (scope iface : String)
deriving Repr, DecidableEq

/-- Rule (architecture_patterns.go:9-12): a description plus a validate
closure, the closure given as its RuleBody shape. -/
structure Rule where
  Description : String
  body : RuleBody
deriving Repr, DecidableEq

/-- ValidationResult (architecture_patterns.go:40-46). -/
structure ValidationResult where
  PatternName : String
  RuleIndex : Nat
  RuleDescription : String
  IsSuccessful : Bool
  FailingTypes : List TypeInfo
deriving Repr, DecidableEq

/-- The synthetic record the hexagonal "domain should exist" rule reports
when no domain type is found (architecture_patterns.go:152-161). -/
def noDomainTypesInfo (ns : String) : TypeInfo :=
  { Name := "Domain", Package := ns, FullPath := "No domain types found"
    Imports := [], Interfaces := [], IsStruct := false, IsInterface := false }

/-- One rule closure run against the shared Types value.  The input is
the state of `types.typeSet`; the output pairs the rule's Result with the
state of `types.typeSet` after the call.  Every closure starts with
`types.That()` (which returns the SAME TypeSet, setting its
`currentPredicate`) and then `ResideInNamespace`, which assigns the
receiver's `currentPredicate` and builds a fresh TypeSet; all later calls
of the chain act on fresh copies, so the shared TypeSet keeps its
records and log, with only `currentPredicate` rewritten. -/
def runRuleBody : RuleBody → TypeSet → Result × TypeSet
  | .shouldNotDep scope dep, u =>
    (((u.That.ResideInNamespace scope).ShouldNot.HaveDependencyOn dep).GetResult,
     u.That.rinReceiverAfter)
  | .shouldDep scope dep, u =>
    (((u.That.ResideInNamespace scope).Should.HaveDependencyOn dep).GetResult,
     u.That.rinReceiverAfter)
  | .domainExists ns, u =>
    ((if (u.That.ResideInNamespace ns).types.length == 0 then
        { IsSuccessful := false, FailingTypes := [noDomainTypesInfo ns] }
      else
        { IsSuccessful := true, FailingTypes := [] }),
     u.That.rinReceiverAfter)
  | .shouldImplement scope iface, u =>
    (((u.That.ResideInNamespace scope).Should.ImplementInterface iface).GetResult,
     u.That.rinReceiverAfter)

/-- ArchitecturePattern (architecture_patterns.go:15-18). -/
structure ArchitecturePattern where
  Name : String
  Rules : List Rule
deriving Repr, DecidableEq

/-- The loop of ArchitecturePattern.Validate
(architecture_patterns.go:21-37), threading the shared Types state from
rule to rule: collect one ValidationResult per rule with the pattern
name, the running index and the rule description. -/
def validateLoop (nm : String) : Nat → TypeSet → List Rule →
    List ValidationResult × TypeSet
  | _, u, [] => ([], u)
  | i, u, r :: rs =>
    let step := runRuleBody r.body u
    let rest := validateLoop nm (i + 1) step.2 rs
    ({ PatternName := nm, RuleIndex := i, RuleDescription := r.Description
       IsSuccessful := step.1.IsSuccessful
       FailingTypes := step.1.FailingTypes } :: rest.1,
     rest.2)

/-- ArchitecturePattern.Validate (architecture_patterns.go:21-37). -/
def ArchitecturePattern.Validate (ap : ArchitecturePattern) (u : TypeSet) :
    List ValidationResult × TypeSet :=
  validateLoop ap.Name 0 u ap.Rules

/-- The rule built for one layer pair by LayeredArchitecture
(architecture_patterns.go:199-210). -/
def layerRule (currentLayer higherLayer : String) : Rule :=
  { Description :=
      s!"Layer {currentLayer} should not depend on higher layer {higherLayer}"
    body := .shouldNotDep currentLayer higherLayer }

/-- The double loop of LayeredArchitecture
(architecture_patterns.go:192-214): for i in 0..n, for j in i+1..n, one
rule per pair.  Pairing the head with every later layer and recursing on
the tail produces the pairs in exactly that order. -/
def layeredRules : List String → List Rule
  | [] => []
  | l :: rest => (rest.map (fun h => layerRule l h)) ++ layeredRules rest

/-- LayeredArchitecture (architecture_patterns.go:184-220).  The
`len(layers) < 2` panic is modelled as `none`. -/
def LayeredArchitecture (layers : List String) : Option ArchitecturePattern :=
  if layers.length < 2 then none
  else some
    { Name := "Layered Architecture ("
        ++ String.intercalate " -> " layers ++ ")"
      Rules := layeredRules layers }

/-- The three intra-context rules DDDWithCleanArchitecture appends per
bounded context (architecture_patterns.go:273-319). -/
def dddIntraRules (domain : String) : List Rule :=
  [ { Description := "Domain layer (internal/" ++ domain
        ++ "/domain) should not depend on application layer (internal/"
        ++ domain ++ "/application)"
      body := .shouldNotDep s!"internal/{domain}/domain"
        s!"internal/{domain}/application" },
    { Description := "Domain layer (internal/" ++ domain
        ++ "/domain) should not depend on infrastructure layer (internal/"
        ++ domain ++ "/infrastructure)"
      body := .shouldNotDep s!"internal/{domain}/domain"
        s!"internal/{domain}/infrastructure" },
    { Description := "Application layer (internal/" ++ domain
        ++ "/application) should not depend on infrastructure layer (internal/"
        ++ domain ++ "/infrastructure)"
      body := .shouldNotDep s!"internal/{domain}/application"
        s!"internal/{domain}/infrastructure" } ]

/-- The cross-context isolation rule of DDDWithCleanArchitecture
(architecture_patterns.go:328-339), for one ordered pair of context
names. -/
def dddCrossRule (domain1 domain2 : String) : Rule :=
  { Description :=
      s!"Domain {domain1} should not depend on domain {domain2} (bounded context isolation)"
    body := .shouldNotDep s!"internal/{domain1}" s!"internal/{domain2}" }

/-- The two shared-kernel rules DDDWithCleanArchitecture appends per
bounded context when a shared namespace is supplied
(architecture_patterns.go:346-377). -/
def dddSharedRules (domain sharedNamespace : String) : List Rule :=
  [ { Description := "Application layer (internal/" ++ domain
        ++ "/application) should not depend on shared kernel ("
        ++ sharedNamespace ++ ")"
      body := .shouldNotDep s!"internal/{domain}/application" sharedNamespace },
    { Description := "Infrastructure layer (internal/" ++ domain
        ++ "/infrastructure) should not depend on shared kernel ("
        ++ sharedNamespace ++ ")"
      body := .shouldNotDep s!"internal/{domain}/infrastructure" sharedNamespace } ]

/-- DDDWithCleanArchitecture (architecture_patterns.go:269-384): the
intra-context rules (loop over domains, three appends each), then the
cross-context isolation rules (nested index loops with `if i != j`),
then — only when sharedNamespace is non-empty — the shared-kernel rules
(two appends per domain).  `pkgNamespace` is accepted but, as in the
source, never used to build a rule. -/
def DDDWithCleanArchitecture (domains : List String)
    (sharedNamespace pkgNamespace : String) : ArchitecturePattern :=
  { Name := "DDD with Clean Architecture (domains: "
      ++ String.intercalate ", " domains ++ ")"
    Rules :=
      (domains.flatMap dddIntraRules)
      ++ ((List.range domains.length).flatMap (fun i =>
            (List.range domains.length).filterMap (fun j =>
              if i ≠ j then
                some (dddCrossRule (domains.getD i "") (domains.getD j ""))
              else none)))
      ++ (if sharedNamespace ≠ "" then
            domains.flatMap (fun d => dddSharedRules d sharedNamespace)
          else []) }

/-! Concrete fixtures used by the claim theorems below. -/

/-- A struct record in app/domain. -/
def tiUser : TypeInfo :=
  { Name := "User", Package := "domain", FullPath := "app/domain"
    Imports := [], Interfaces := [], IsStruct := true, IsInterface := false }

/-- An interface record in app/domain. -/
def tiRepo : TypeInfo :=
  { Name := "Repo", Package := "domain", FullPath := "app/domain"
    Imports := [], Interfaces := ["Save"], IsStruct := false, IsInterface := true }

/-- A universe holding one struct and one interface record. -/
def tsMix : TypeSet :=
  { types := [tiUser, tiRepo], originalTypes := [tiUser, tiRepo]
    currentPredicate := "", matchedPredicates := [] }

/-- A record whose only import is "reorder". -/
def tiImportsReorder : TypeInfo :=
  { Name := "Handler", Package := "svc", FullPath := "app/svc"
    Imports := ["reorder"], Interfaces := [], IsStruct := true, IsInterface := false }

/-- A one-record universe around `tiImportsReorder`. -/
def tsReorder : TypeSet :=
  { types := [tiImportsReorder], originalTypes := [tiImportsReorder]
    currentPredicate := "", matchedPredicates := [] }

/-- A TypeSet mid-chain: the record list has been narrowed to [tiUser]
while the baseline still holds both records. -/
def tsNarrowed : TypeSet :=
  { types := [tiUser], originalTypes := [tiUser, tiRepo]
    currentPredicate := "", matchedPredicates := ["ResideInNamespace"] }

/-- Records distinguishing Package-based from FullPath-based identity:
same short package name and type name, different full paths. -/
def tiUserApp1 : TypeInfo :=
  { Name := "User", Package := "domain", FullPath := "app1/domain"
    Imports := [], Interfaces := [], IsStruct := true, IsInterface := false }

/-- Same Package and Name as `tiUserApp1`, different FullPath. -/
def tiUserApp2 : TypeInfo :=
  { Name := "User", Package := "domain", FullPath := "app2/domain"
    Imports := [], Interfaces := [], IsStruct := true, IsInterface := false }

/-- One-record TypeSet around `tiUserApp1`. -/
def tsOrLeft : TypeSet :=
  { types := [tiUserApp1], originalTypes := [tiUserApp1]
    currentPredicate := "", matchedPredicates := [] }

/-- One-record TypeSet around `tiUserApp2`. -/
def tsOrRight : TypeSet :=
  { types := [tiUserApp2], originalTypes := [tiUserApp2]
    currentPredicate := "", matchedPredicates := [] }

/-! C1. -/

/-- C1: the claim says every filtering predicate returns a new TypeSet
sharing no mutable state with its receiver, leaving the receiver's
current record list unchanged.  BeStruct (part_009:148-161) instead
assigns the filtered list to the receiver and returns the receiver, so
after `s.BeStruct()` the object `s` itself holds only the filtered
records: a second query chain rooted at `s` starts from `[tiUser]`,
not from the original two records. -/
theorem C1_beStruct_mutates_receiver :
    tsMix.types = [tiUser, tiRepo]
    ∧ tsMix.BeStruct.types = [tiUser]
    ∧ tsMix.BeStruct.types ≠ tsMix.types := by
  refine ⟨rfl, by decide, by decide⟩

/-! C5. -/

/-- C5: the claim says DoNotHaveDependencyOn(dep) is the exact
complement of HaveDependencyOn(dep) on each record, under the same
import-matching rule.  On a record importing "reorder" with dep =
"order", HaveDependencyOn (segment-aware matching, part_009:66-107)
drops the record AND DoNotHaveDependencyOn (plain substring matching,
part_010:96-117) also drops it — neither predicate keeps it, so the
two are not complementary. -/
theorem C5_dependency_predicates_not_complementary :
    (tsReorder.HaveDependencyOn "order").types = []
    ∧ (tsReorder.DoNotHaveDependencyOn "order").types = []
    ∧ tsReorder.types = [tiImportsReorder] := by
  refine ⟨by decide, by decide, rfl⟩

/-! C6. -/

/-- C6 counterexample: the claim says ShouldNot resets the baseline
(originalTypes) to the receiver's current records at the moment of the
call.  On a TypeSet narrowed to [tiUser] with baseline [tiUser, tiRepo],
ShouldNot (part_009:231-242) carries the old baseline forward instead of
resetting it. -/
theorem C6_shouldNot_keeps_baseline_counterexample :
    tsNarrowed.types = [tiUser]
    ∧ tsNarrowed.ShouldNot.originalTypes = [tiUser, tiRepo]
    ∧ tsNarrowed.ShouldNot.originalTypes ≠ tsNarrowed.types := by
  refine ⟨rfl, rfl, by decide⟩

/-- C6 (amended): every filtering predicate carries the receiver's
baseline records forward unchanged — including ShouldNot, which copies
the baseline as-is and records negation in the predicate log; only
Should resets the baseline to the receiver's current records. -/
theorem C6_baseline_carried_except_should :
    ∀ (ts other : TypeSet) (s nm : String) (p : TypeInfo → Bool)
      (rx : Option (String → Bool)),
      (ts.ResideInNamespace s).originalTypes = ts.originalTypes
      ∧ (ts.HaveDependencyOn s).originalTypes = ts.originalTypes
      ∧ (ts.DoNotHaveDependencyOn s).originalTypes = ts.originalTypes
      ∧ (ts.ImplementInterface s).originalTypes = ts.originalTypes
      ∧ ts.BeStruct.originalTypes = ts.originalTypes
      ∧ (ts.NameMatch rx).originalTypes = ts.originalTypes
      ∧ (ts.HaveNameEndingWith s).originalTypes = ts.originalTypes
      ∧ (ts.HaveNameStartingWith s).originalTypes = ts.originalTypes
      ∧ (ts.ResideInDirectory s).originalTypes = ts.originalTypes
      ∧ (ts.DoNotResideInNamespace s).originalTypes = ts.originalTypes
      ∧ (ts.WithCustomPredicate nm p).originalTypes = ts.originalTypes
      ∧ (ts.Or other).originalTypes = ts.originalTypes
      ∧ ts.ShouldNot.originalTypes = ts.originalTypes
      ∧ ts.Should.originalTypes = ts.types := by
  intro ts other s nm p rx
  refine ⟨rfl, rfl, rfl, rfl, rfl, ?_, rfl, rfl, rfl, rfl, rfl, rfl, rfl, rfl⟩
  cases rx <;> rfl

/-! C7. -/

/-- C7 counterexample: the claim says Or unions by the (modulePath,
name) pair.  The code (part_009:185-205) keys the union on
Package + "." + Name: with two records of equal Package and Name but
different FullPath, the other set's record is dropped even though its
(modulePath, name) identity is absent from the receiver, and
a.Or(b) and b.Or(a) do not contain the same records by that identity. -/
theorem C7_or_identity_counterexample :
    (tsOrLeft.Or tsOrRight).types = [tiUserApp1]
    ∧ (tsOrRight.Or tsOrLeft).types = [tiUserApp2]
    ∧ tiUserApp1.FullPath ≠ tiUserApp2.FullPath
    ∧ ((tsOrLeft.Or tsOrRight).types.all
        (fun t => !(t.FullPath == tiUserApp2.FullPath && t.Name == tiUserApp2.Name))
        = true) := by
  refine ⟨by decide, by decide, by decide, by decide⟩

/-! C2. -/

/-- C2: GetResult case analysis.  Either the applied-predicate log is
empty and the Result is the trivial success with no failing types; or
the "Negate" sentinel is in the log, success holds exactly when the
current record list is empty, and the failing types are exactly the
current records; or the log is non-empty without the sentinel, success
holds exactly when the current record list is non-empty, and a record
fails exactly when it is a baseline record with no current record of
the same (modulePath, name) identity. -/
theorem C2_getResult_cases (ts : TypeSet) :
    (ts.matchedPredicates = []
      ∧ ts.GetResult = { IsSuccessful := true, FailingTypes := [] })
    ∨ ("Negate" ∈ ts.matchedPredicates
      ∧ (ts.GetResult.IsSuccessful = true ↔ ts.types = [])
      ∧ ts.GetResult.FailingTypes = ts.types)
    ∨ (ts.matchedPredicates ≠ [] ∧ "Negate" ∉ ts.matchedPredicates
      ∧ (ts.GetResult.IsSuccessful = true ↔ ts.types ≠ [])
      ∧ ∀ t : TypeInfo,
          (t ∈ ts.GetResult.FailingTypes ↔
            t ∈ ts.originalTypes
            ∧ ¬ ∃ f ∈ ts.types, f.FullPath = t.FullPath ∧ f.Name = t.Name)) := by
  by_cases hlog : ts.matchedPredicates = []
  · left
    refine ⟨hlog, ?_⟩
    simp [TypeSet.GetResult, hlog]
  · by_cases hneg : "Negate" ∈ ts.matchedPredicates
    · right; left
      have h1 : (ts.matchedPredicates.length == 0) = false := by
        simp [List.length_eq_zero, hlog]
      have h2 : ts.matchedPredicates.any (· == "Negate") = true := by
        simp only [List.any_eq_true, beq_iff_eq]
        exact ⟨"Negate", hneg, rfl⟩
      refine ⟨hneg, ?_, ?_⟩
      · simp [TypeSet.GetResult, h1, h2, List.length_eq_zero]
      · simp [TypeSet.GetResult, h1, h2]
    · right; right
      have h1 : (ts.matchedPredicates.length == 0) = false := by
        simp [List.length_eq_zero, hlog]
      have h2 : ts.matchedPredicates.any (· == "Negate") = false := by
        simp only [List.any_eq_false, beq_iff_eq]
        intro x hx hx2
        exact hneg (hx2 ▸ hx)
      refine ⟨hlog, hneg, ?_, ?_⟩
      · simp [TypeSet.GetResult, h1, h2, List.length_pos, Nat.pos_iff_ne_zero,
          List.length_eq_zero]
      · intro t
        have h3 : ts.GetResult.FailingTypes = ts.getFailingTypes := by
          simp [TypeSet.GetResult, h1, h2]
        rw [h3]
        simp only [TypeSet.getFailingTypes, List.mem_filter, Bool.not_eq_true',
          List.any_eq_false, Bool.and_eq_true, beq_iff_eq, not_exists]
        aesop

/-! C3. -/

/-- A record with module path "app/order". -/
def tiAppOrder : TypeInfo :=
  { Name := "A", Package := "order", FullPath := "app/order"
    Imports := [], Interfaces := [], IsStruct := true, IsInterface := false }

/-- A record with module path "order/sub". -/
def tiOrderSub : TypeInfo :=
  { Name := "B", Package := "sub", FullPath := "order/sub"
    Imports := [], Interfaces := [], IsStruct := true, IsInterface := false }

/-- A record with module path "order". -/
def tiOrderExact : TypeInfo :=
  { Name := "C", Package := "order", FullPath := "order"
    Imports := [], Interfaces := [], IsStruct := true, IsInterface := false }

/-- A record with module path "reorder". -/
def tiReorderPath : TypeInfo :=
  { Name := "D", Package := "reorder", FullPath := "reorder"
    Imports := [], Interfaces := [], IsStruct := true, IsInterface := false }

/-- A record with module path "orderly". -/
def tiOrderly : TypeInfo :=
  { Name := "E", Package := "orderly", FullPath := "orderly"
    Imports := [], Interfaces := [], IsStruct := true, IsInterface := false }

/-- A universe holding the five order-related fixtures. -/
def tsOrderUniverse : TypeSet :=
  { types := [tiAppOrder, tiOrderSub, tiOrderExact, tiReorderPath, tiOrderly]
    originalTypes := [tiAppOrder, tiOrderSub, tiOrderExact, tiReorderPath, tiOrderly]
    currentPredicate := "", matchedPredicates := [] }

/-- C3: ResideInNamespace keeps a record exactly when its module path
equals the namespace, or starts with namespace-plus-slash, or ends with
slash-plus-namespace, or contains slash-namespace-slash; in particular,
with namespace "order" it keeps "app/order", "order/sub" and "order"
and keeps neither "reorder" nor "orderly". -/
theorem C3_resideInNamespace_segment_matching :
    (∀ (ts : TypeSet) (ns : String) (t : TypeInfo),
        t ∈ (ts.ResideInNamespace ns).types ↔
          t ∈ ts.types
          ∧ (t.FullPath = ns
             ∨ goStartsWith t.FullPath (ns ++ "/") = true
             ∨ goEndsWith t.FullPath ("/" ++ ns) = true
             ∨ goContains t.FullPath ("/" ++ ns ++ "/") = true))
    ∧ (tsOrderUniverse.ResideInNamespace "order").types
        = [tiAppOrder, tiOrderSub, tiOrderExact] := by
  constructor
  · intro ts ns t
    simp only [TypeSet.ResideInNamespace, List.mem_filter, rinMatch,
      Bool.or_eq_true, beq_iff_eq]
    tauto
  · decide

/-- Keys present after the Or append loop: exactly the keys of the
accumulated list joined with the keys of the records still to walk,
provided the seen-set is exactly the accumulated list's key set. -/
theorem orAppendLoop_mem_key (k : String) :
    ∀ (rest cur : List TypeInfo) (seen : List String),
      (∀ s, s ∈ seen ↔ s ∈ cur.map orKey) →
      (k ∈ (orAppendLoop cur seen rest).map orKey ↔
        k ∈ cur.map orKey ∨ k ∈ rest.map orKey)
  | [], cur, seen, _ => by simp [orAppendLoop]
  | t :: rest, cur, seen, hinv => by
    cases hc : seen.contains (orKey t) with
    | true =>
      have hmem : orKey t ∈ cur.map orKey := (hinv _).1 (by simpa using hc)
      have ih := orAppendLoop_mem_key k rest cur seen hinv
      simp only [orAppendLoop, hc, if_true]
      rw [ih]
      simp only [List.map_cons, List.mem_cons]
      constructor
      · tauto
      · rintro (h | h | h)
        · tauto
        · exact Or.inl (h ▸ hmem)
        · tauto
    | false =>
      have hinv2 : ∀ s, s ∈ seen ++ [orKey t] ↔ s ∈ (cur ++ [t]).map orKey := by
        intro s
        simp [hinv s]
      have ih := orAppendLoop_mem_key k rest (cur ++ [t]) (seen ++ [orKey t]) hinv2
      simp only [orAppendLoop, hc, Bool.false_eq_true, if_false]
      rw [ih]
      simp only [List.map_append, List.map_cons, List.map_nil, List.mem_append,
        List.mem_cons, List.mem_singleton]
      tauto

/-- Every record the Or append loop produces came from the accumulated
list or from the walked list. -/
theorem orAppendLoop_subset (t : TypeInfo) :
    ∀ (rest cur : List TypeInfo) (seen : List String),
      t ∈ orAppendLoop cur seen rest → t ∈ cur ∨ t ∈ rest
  | [], cur, seen, h => Or.inl h
  | x :: rest, cur, seen, h => by
    cases hc : seen.contains (orKey x) with
    | true =>
      simp only [orAppendLoop, hc, if_true] at h
      rcases orAppendLoop_subset t rest cur seen h with h1 | h1
      · exact Or.inl h1
      · exact Or.inr (List.mem_cons_of_mem x h1)
    | false =>
      simp only [orAppendLoop, hc, Bool.false_eq_true, if_false] at h
      rcases orAppendLoop_subset t rest (cur ++ [x]) (seen ++ [orKey x]) h with h1 | h1
      · rcases List.mem_append.1 h1 with h2 | h2
        · exact Or.inl h2
        · exact Or.inr (by simpa using Or.inl (List.mem_singleton.1 h2))
      · exact Or.inr (List.mem_cons_of_mem x h1)

/-- The Or append loop appends nothing when every walked record's key is
already seen. -/
theorem orAppendLoop_no_new :
    ∀ (rest cur : List TypeInfo) (seen : List String),
      (∀ x ∈ rest, orKey x ∈ seen) → orAppendLoop cur seen rest = cur
  | [], cur, seen, _ => rfl
  | x :: rest, cur, seen, h => by
    have hc : seen.contains (orKey x) = true := by
      simpa using h x (List.mem_cons_self x rest)
    simp only [orAppendLoop, hc, if_true]
    exact orAppendLoop_no_new rest cur seen (fun y hy => h y (List.mem_cons_of_mem x hy))

/-- C7 (amended): Or unions the two current record lists by the
(moduleName, name) — i.e. Package + "." + Name — key: the result's key
set is the union of the two key sets, every result record comes from one
of the two lists, a.Or(b) and b.Or(a) hold the same keys, a.Or(a)
leaves the record list unchanged, and the receiver's baseline is
unaffected. -/
theorem C7_or_union_by_package_name (ts other : TypeSet) :
    (ts.Or other).originalTypes = ts.originalTypes
    ∧ (∀ k : String, k ∈ (ts.Or other).types.map orKey ↔
        (k ∈ ts.types.map orKey ∨ k ∈ other.types.map orKey))
    ∧ (∀ t : TypeInfo, t ∈ (ts.Or other).types → t ∈ ts.types ∨ t ∈ other.types)
    ∧ (∀ k : String, k ∈ (ts.Or other).types.map orKey ↔
        k ∈ (other.Or ts).types.map orKey)
    ∧ (ts.Or ts).types = ts.types := by
  refine ⟨rfl, ?_, ?_, ?_, ?_⟩
  · intro k
    exact orAppendLoop_mem_key k other.types ts.types (ts.types.map orKey)
      (fun _ => Iff.rfl)
  · intro t ht
    exact orAppendLoop_subset t other.types ts.types (ts.types.map orKey) ht
  · intro k
    rw [show (ts.Or other).types
          = orAppendLoop ts.types (ts.types.map orKey) other.types from rfl,
        show (other.Or ts).types
          = orAppendLoop other.types (other.types.map orKey) ts.types from rfl,
        orAppendLoop_mem_key k other.types ts.types (ts.types.map orKey)
          (fun _ => Iff.rfl),
        orAppendLoop_mem_key k ts.types other.types (other.types.map orKey)
          (fun _ => Iff.rfl)]
    exact or_comm
  · exact orAppendLoop_no_new ts.types ts.types (ts.types.map orKey)
      (fun x hx => List.mem_map_of_mem orKey hx)

/-! C4. -/

/-- After any rule closure runs, the shared TypeSet differs from the one
it was given only in `currentPredicate` (set by ResideInNamespace after
That): its records, baseline and predicate log are untouched. -/
theorem runRuleBody_snd (b : RuleBody) (u : TypeSet) :
    (runRuleBody b u).2 = { u with currentPredicate := "ResideInNamespace" } := by
  cases b <;> rfl

/-- A rule closure's Result depends only on the records, baseline and
predicate log of the TypeSet it is given, not on `currentPredicate`. -/
theorem runRuleBody_fst_congr (b : RuleBody) (u v : TypeSet)
    (ht : v.types = u.types) (ho : v.originalTypes = u.originalTypes)
    (hm : v.matchedPredicates = u.matchedPredicates) :
    (runRuleBody b v).1 = (runRuleBody b u).1 := by
  obtain ⟨t, o, c, m⟩ := u
  obtain ⟨t2, o2, c2, m2⟩ := v
  dsimp only at ht ho hm
  subst ht; subst ho; subst hm
  cases b <;> rfl

/-- The ValidationResults a pattern SHOULD produce per the claim: one
per rule, in declared order, carrying the pattern name, the running
index and the rule's description, the rule evaluated on the pristine
universe `u` every time. -/
def pristineResults (nm : String) (u : TypeSet) : Nat → List Rule → List ValidationResult
  | _, [] => []
  | i, r :: rs =>
    { PatternName := nm, RuleIndex := i, RuleDescription := r.Description
      IsSuccessful := (runRuleBody r.body u).1.IsSuccessful
      FailingTypes := (runRuleBody r.body u).1.FailingTypes }
      :: pristineResults nm u (i + 1) rs

/-- pristineResults yields one entry per rule. -/
theorem pristineResults_length (nm : String) (u : TypeSet) :
    ∀ (rs : List Rule) (i : Nat), (pristineResults nm u i rs).length = rs.length
  | [], _ => rfl
  | _ :: rs, i => by
    simp [pristineResults, pristineResults_length nm u rs (i + 1)]

/-- The Validate loop, started on any TypeSet agreeing with the pristine
universe on records, baseline and log, produces exactly the pristine
per-rule results and ends on a TypeSet still agreeing with the pristine
universe on those three fields. -/
theorem validateLoop_spec (nm : String) (u : TypeSet) :
    ∀ (rs : List Rule) (i : Nat) (v : TypeSet),
      v.types = u.types → v.originalTypes = u.originalTypes →
      v.matchedPredicates = u.matchedPredicates →
      (validateLoop nm i v rs).1 = pristineResults nm u i rs
      ∧ (validateLoop nm i v rs).2.types = u.types
      ∧ (validateLoop nm i v rs).2.originalTypes = u.originalTypes
      ∧ (validateLoop nm i v rs).2.matchedPredicates = u.matchedPredicates
  | [], i, v, ht, ho, hm => ⟨rfl, ht, ho, hm⟩
  | r :: rs, i, v, ht, ho, hm => by
    have hfst := runRuleBody_fst_congr r.body u v ht ho hm
    have hsnd := runRuleBody_snd r.body v
    have ih := validateLoop_spec nm u rs (i + 1) (runRuleBody r.body v).2
      (by rw [hsnd]; exact ht) (by rw [hsnd]; exact ho) (by rw [hsnd]; exact hm)
    refine ⟨?_, ih.2.1, ih.2.2.1, ih.2.2.2⟩
    simp only [validateLoop, pristineResults, ih.1, hfst]

/-- C4: ArchitecturePattern.Validate produces exactly one
ValidationResult per rule, in the pattern's declared order, each
carrying the pattern name, the rule's index and the rule's description,
and each rule is evaluated against the same unfiltered universe (the
results coincide with evaluating every rule on the pristine universe,
and the shared TypeSet's records, baseline and predicate log are
unchanged when Validate returns). -/
theorem C4_validate_runs_each_rule_on_fresh_universe
    (ap : ArchitecturePattern) (u : TypeSet) :
    (ap.Validate u).1 = pristineResults ap.Name u 0 ap.Rules
    ∧ (ap.Validate u).1.length = ap.Rules.length
    ∧ (ap.Validate u).2.types = u.types
    ∧ (ap.Validate u).2.originalTypes = u.originalTypes
    ∧ (ap.Validate u).2.matchedPredicates = u.matchedPredicates := by
  have h := validateLoop_spec ap.Name u ap.Rules 0 u rfl rfl rfl
  exact ⟨h.1, by rw [show (ap.Validate u).1 = (validateLoop ap.Name 0 u ap.Rules).1 from rfl,
    h.1, pristineResults_length], h.2.1, h.2.2.1, h.2.2.2⟩

/-! C8. -/

/-- The rule list stated by the claim: one rule for every ordered index
pair (i, j) with i < j, enumerated in the caller-supplied order. -/
def orderedPairRules (layers : List String) : List Rule :=
  (List.range layers.length).flatMap (fun i =>
    (List.range layers.length).filterMap (fun j =>
      if i < j then some (layerRule (layers.getD i "") (layers.getD j "")) else none))

/-- Mapping an index-indirection over the range of a list's length is
mapping over the list itself. -/
theorem map_getD_range {α β : Type} (f : α → β) (d : α) :
    ∀ l : List α, (List.range l.length).map (fun i => f (l.getD i d)) = l.map f
  | [] => rfl
  | x :: l => by
    rw [List.length_cons, List.range_succ_eq_map, List.map_cons, List.map_map]
    simp only [List.getD_cons_zero, List.getD_cons_succ, Function.comp,
      Nat.succ_eq_add_one]
    rw [List.map_cons]
    congr 1
    exact map_getD_range f d l

/-- The double loop of LayeredArchitecture enumerates exactly the
ordered index pairs (i, j) with i < j, in order. -/
theorem layeredRules_eq_pairs : ∀ layers : List String,
    layeredRules layers = orderedPairRules layers
  | [] => rfl
  | l :: rest => by
    rw [layeredRules, layeredRules_eq_pairs rest]
    unfold orderedPairRules
    rw [List.length_cons, List.range_succ_eq_map, List.flatMap_cons, List.flatMap_map]
    congr 1
    · simp only [List.filterMap_cons, lt_self_iff_false, if_false, List.filterMap_map]
      have h1 : ((fun j => if 0 < j then
            some (layerRule ((l :: rest).getD 0 "") ((l :: rest).getD j "")) else none)
            ∘ Nat.succ)
          = some ∘ (fun j => layerRule l (rest.getD j "")) := by
        funext j
        simp [Function.comp, Nat.succ_pos, List.getD_cons_succ, List.getD_cons_zero]
      rw [h1, List.filterMap_eq_map]
      exact (map_getD_range (fun h => layerRule l h) "" rest).symm
    · congr 1
      funext i
      simp only [Function.comp, List.filterMap_cons, Nat.not_lt_zero, if_false,
        List.filterMap_map, Nat.succ_lt_succ_iff, List.getD_cons_succ]
      congr 1
      funext j
      simp [Function.comp, Nat.succ_lt_succ_iff, List.getD_cons_succ]

/-- Twice the number of layered rules is n * (n - 1). -/
theorem layeredRules_two_mul_length :
    ∀ layers : List String,
      2 * (layeredRules layers).length = layers.length * (layers.length - 1)
  | [] => rfl
  | _ :: rest => by
    have ih := layeredRules_two_mul_length rest
    rw [layeredRules, List.length_append, List.length_map, List.length_cons]
    cases rest with
    | nil => rfl
    | cons b bs =>
      rw [List.length_cons] at ih ⊢
      simp only [Nat.add_sub_cancel] at ih ⊢
      calc 2 * (bs.length + 1 + (layeredRules (b :: bs)).length)
          = 2 * (bs.length + 1) + 2 * (layeredRules (b :: bs)).length := by ring
        _ = 2 * (bs.length + 1) + (bs.length + 1) * bs.length := by rw [ih]
        _ = (bs.length + 1 + 1) * (bs.length + 1) := by ring

/-- C8: LayeredArchitecture fails fast (modelled as `none`) exactly when
fewer than two layers are supplied; with n >= 2 layers it produces one
rule per ordered pair (i, j), i < j, in the caller-supplied order —
n * (n - 1) / 2 rules in total, e.g. exactly 3 rules for three layers —
each rule asserting that layer i should not depend on layer j. -/
theorem C8_layeredArchitecture_rules (layers : List String) :
    (LayeredArchitecture layers = none ↔ layers.length < 2)
    ∧ (∀ ap : ArchitecturePattern, LayeredArchitecture layers = some ap →
        ap.Rules = orderedPairRules layers
        ∧ ap.Rules.length = layers.length * (layers.length - 1) / 2)
    ∧ (LayeredArchitecture ["presentation", "business", "data"]).map
        (fun ap => ap.Rules.length) = some 3 := by
  refine ⟨?_, ?_, ?_⟩
  · by_cases h : layers.length < 2 <;> simp [LayeredArchitecture, h]
  · intro ap hap
    by_cases h : layers.length < 2
    · rw [LayeredArchitecture, if_pos h] at hap
      exact absurd hap (by simp)
    · rw [LayeredArchitecture, if_neg h] at hap
      have hap2 := Option.some.inj hap
      constructor
      · rw [← hap2]
        exact layeredRules_eq_pairs layers
      · rw [← hap2]
        show (layeredRules layers).length = layers.length * (layers.length - 1) / 2
        have h2 := layeredRules_two_mul_length layers
        omega
  · decide

/-! C9. -/

/-- A flatMap whose blocks all have length k yields k * n elements. -/
theorem flatMap_length_const {α β : Type} (k : Nat) (f : α → List β) :
    ∀ l : List α, (∀ a ∈ l, (f a).length = k) → (l.flatMap f).length = k * l.length
  | [], _ => by simp
  | x :: l, h => by
    rw [List.flatMap_cons, List.length_append, h x (List.mem_cons_self x l),
      flatMap_length_const k f l (fun a ha => h a (List.mem_cons_of_mem x ha)),
      List.length_cons]
    ring

/-- A filterMap by an if-some-else-none is a map over the filtered list. -/
theorem filterMap_ite_eq_map_filter {α β : Type} (p : α → Prop) [DecidablePred p]
    (g : α → β) :
    ∀ l : List α,
      l.filterMap (fun x => if p x then some (g x) else none)
        = (l.filter (fun x => decide (p x))).map g
  | [] => rfl
  | x :: l => by
    rw [List.filterMap_cons, List.filter_cons]
    by_cases hp : p x <;>
      simp [hp, filterMap_ite_eq_map_filter p g l]

/-- Dropping one present index from the range leaves n - 1 indices. -/
theorem range_filter_ne_length :
    ∀ n i : Nat, i < n →
      ((List.range n).filter (fun j => decide (i ≠ j))).length = n - 1 := by
  intro n
  induction n with
  | zero => intro i h; omega
  | succ n ih =>
    intro i hi
    rw [List.range_succ, List.filter_append]
    by_cases hin : i = n
    · subst hin
      have hall : (List.range i).filter (fun j => decide (i ≠ j)) = List.range i := by
        rw [List.filter_eq_self]
        intro a ha
        have := List.mem_range.1 ha
        simp
        omega
      rw [hall]
      simp
    · have hi2 : i < n := by omega
      rw [List.length_append, ih i hi2]
      simp [hin]
      omega

/-- The cross-context block of DDDWithCleanArchitecture, named for the
claim statement: one isolation rule per ordered index pair (i, j) with
i distinct from j. -/
def dddCrossBlock (domains : List String) : List Rule :=
  (List.range domains.length).flatMap (fun i =>
    (List.range domains.length).filterMap (fun j =>
      if i ≠ j then some (dddCrossRule (domains.getD i "") (domains.getD j ""))
      else none))

/-- C9: DDDWithCleanArchitecture produces exactly 3 intra-context rules
per bounded context, one isolation rule per ordered pair of distinct
contexts, and — exactly when the shared-kernel namespace is non-empty —
two shared-kernel rules per context: the total count is
3n + n(n-1) (+ 2n when shared is non-empty), every context's three
intra-context layering rules and two shared-kernel rules are present,
every ordered distinct index pair's isolation rule is present, and with
an empty shared namespace the rule list is exactly the intra-context
rules followed by the isolation rules. -/
theorem C9_dddWithCleanArchitecture_rules (domains : List String)
    (shared pkg : String) :
    (DDDWithCleanArchitecture domains shared pkg).Rules.length
      = 3 * domains.length + domains.length * (domains.length - 1)
        + (if shared = "" then 0 else 2 * domains.length)
    ∧ (∀ d ∈ domains, ∀ r ∈ dddIntraRules d,
        r ∈ (DDDWithCleanArchitecture domains shared pkg).Rules)
    ∧ (∀ i j : Nat, i < domains.length → j < domains.length → i ≠ j →
        dddCrossRule (domains.getD i "") (domains.getD j "")
          ∈ (DDDWithCleanArchitecture domains shared pkg).Rules)
    ∧ (shared ≠ "" → ∀ d ∈ domains, ∀ r ∈ dddSharedRules d shared,
        r ∈ (DDDWithCleanArchitecture domains shared pkg).Rules)
    ∧ (shared = "" → (DDDWithCleanArchitecture domains shared pkg).Rules
        = domains.flatMap dddIntraRules ++ dddCrossBlock domains) := by
  have hcross : (dddCrossBlock domains).length
      = domains.length * (domains.length - 1) := by
    rw [dddCrossBlock,
      flatMap_length_const (domains.length - 1) _ (List.range domains.length)
        (fun i hi => by
          rw [filterMap_ite_eq_map_filter, List.length_map,
            range_filter_ne_length domains.length i (List.mem_range.1 hi)]),
      List.length_range, Nat.mul_comm]
  refine ⟨?_, ?_, ?_, ?_, ?_⟩
  · show (domains.flatMap dddIntraRules ++ dddCrossBlock domains
      ++ (if shared ≠ "" then
            domains.flatMap (fun d => dddSharedRules d shared) else [])).length = _
    rw [List.length_append, List.length_append,
      flatMap_length_const 3 dddIntraRules domains (fun _ _ => rfl), hcross]
    by_cases hs : shared = ""
    · simp [hs]
    · rw [if_pos hs, if_neg hs,
        flatMap_length_const 2 (fun d => dddSharedRules d shared) domains
          (fun _ _ => rfl)]
  · intro d hd r hr
    exact List.mem_append_left _ (List.mem_append_left _
      (List.mem_flatMap.2 ⟨d, hd, hr⟩))
  · intro i j hi hj hij
    refine List.mem_append_left _ (List.mem_append_right _ ?_)
    exact List.mem_flatMap.2 ⟨i, List.mem_range.2 hi,
      List.mem_filterMap.2 ⟨j, List.mem_range.2 hj, by rw [if_pos hij]⟩⟩
  · intro hs d hd r hr
    show r ∈ domains.flatMap dddIntraRules ++ dddCrossBlock domains
      ++ (if shared ≠ "" then
            domains.flatMap (fun d => dddSharedRules d shared) else [])
    rw [if_pos hs]
    exact List.mem_append_right _ (List.mem_flatMap.2 ⟨d, hd, hr⟩)
  · intro hs
    show domains.flatMap dddIntraRules ++ dddCrossBlock domains
      ++ (if shared ≠ "" then
            domains.flatMap (fun d => dddSharedRules d shared) else []) = _
    simp [hs]

/-! C10. -/

/-- C10: a NameMatch call whose pattern fails to compile (modelled as
`compiled = none`) empties the current record list but does not append
"NameMatch" to the applied-predicate log, so a chain whose only applied
predicate was that call still has an empty log and GetResult takes the
vacuous-pass branch: a successful Result with no failing types. -/
theorem C10_invalid_nameMatch_vacuous_pass (ts : TypeSet)
    (h : ts.matchedPredicates = []) :
    (ts.That.NameMatch none).types = []
    ∧ (ts.That.NameMatch none).matchedPredicates = ts.matchedPredicates
    ∧ (ts.That.NameMatch none).GetResult
        = { IsSuccessful := true, FailingTypes := [] } := by
  refine ⟨rfl, rfl, ?_⟩
  simp [TypeSet.GetResult, TypeSet.NameMatch, TypeSet.That, h]

/-- C10 witness: the vacuous pass at the concrete two-record universe. -/
theorem C10_invalid_nameMatch_vacuous_pass_witness :
    tsMix.matchedPredicates = []
    ∧ ((tsMix.That.NameMatch none).types = []
      ∧ (tsMix.That.NameMatch none).matchedPredicates = tsMix.matchedPredicates
      ∧ (tsMix.That.NameMatch none).GetResult
          = { IsSuccessful := true, FailingTypes := [] }) :=
  ⟨rfl, C10_invalid_nameMatch_vacuous_pass tsMix rfl⟩

end GoArchTest
